import Mathlib

/-!
Shallow embedding of the blogspotter analytics pipeline
(`src/services/geminiService.ts` rss-service section, `src/App.tsx`).

Modelling conventions:
* JS strings are modelled as `List Char` where character-level operations
  matter (URL normalisation) and as `String` elsewhere.
* JS numbers are modelled as exact rationals `ℚ`; real-valued operations
  (square root, base-10 logarithm) live in `ℝ`.
* Timestamps (`Date.getTime()` values) are rational milliseconds;
  `new Date()` is passed in as an explicit `now` parameter, and parsed
  date strings are passed in already as timestamps.
* Network effects are modelled by passing each relay attempt's outcome,
  resp. the whole analysis outcome, as an explicit argument.
-/

/-! ## URL normaliser (`normalizeUrl` in rssService) -/

/-- Whitespace characters removed by `String.prototype.trim` (ASCII core). -/
def isJsSpace (c : Char) : Bool :=
  c == ' ' || c == '\t' || c == '\r' || c == '\n'

/-- Model of `url.trim()`: drop whitespace from both ends. -/
def jsTrim (s : List Char) : List Char :=
  ((s.dropWhile isJsSpace).reverse.dropWhile isJsSpace).reverse

/-- The `while (cleanUrl.endsWith('/')) cleanUrl = cleanUrl.slice(0, -1)`
loop, viewed on the reversed character list: repeatedly drop a leading
(`= trailing`) slash. -/
def stripSlashesRev : List Char → List Char
  | [] => []
  | c :: rest => if c == '/' then stripSlashesRev rest else c :: rest

/-- All trailing `'/'` characters removed, as in the source's while loop. -/
def stripTrailingSlashes (s : List Char) : List Char :=
  (stripSlashesRev s.reverse).reverse

/-- Model of `cleanUrl.startsWith("http")`. -/
def startsWithHttp : List Char → Bool
  | 'h' :: 't' :: 't' :: 'p' :: _ => true
  | _ => false

/-- Source `normalizeUrl`: trim, strip trailing slashes, and prepend
`https://` when the result does not start with `http`. -/
def normalizeUrl (url : List Char) : List Char :=
  let c1 := jsTrim url
  let c2 := stripTrailingSlashes c1
  if startsWithHttp c2 then c2 else "https://".toList ++ c2

/-- Spec-side normaliser, written from the spec's words: trim whitespace,
remove all trailing `'/'` characters (as a one-pass removal of the
trailing run of slashes), then prepend `https://` exactly when the result
does not start with the HTTP scheme token `http`. -/
def specNormalizeUrl (url : List Char) : List Char :=
  let trimmed := jsTrim url
  let noSlash := (trimmed.reverse.dropWhile (fun c => c == '/')).reverse
  if startsWithHttp noSlash then noSlash else "https://".toList ++ noSlash

/-! ### List lemmas used for the normaliser -/

theorem dropWhile_head_false {α : Type} (p : α → Bool) (l : List α) :
    ∀ c, (l.dropWhile p).head? = some c → p c = false := by
  induction l with
  | nil => intro c h; simp at h
  | cons a t ih =>
    intro c h
    rw [List.dropWhile_cons] at h
    by_cases hp : p a = true
    · rw [if_pos hp] at h; exact ih c h
    · rw [if_neg hp] at h
      simp only [List.head?_cons, Option.some.injEq] at h
      subst h
      simpa using hp

theorem dropWhile_eq_self_of_head {α : Type} (p : α → Bool) (l : List α)
    (h : ∀ c, l.head? = some c → p c = false) : l.dropWhile p = l := by
  cases l with
  | nil => rfl
  | cons a t =>
    have ha : p a = false := h a rfl
    simp [List.dropWhile_cons, ha]

theorem dropWhile_suffix_decomp {α : Type} (p : α → Bool) (l : List α) :
    ∃ s, s ++ l.dropWhile p = l := by
  induction l with
  | nil => exact ⟨[], rfl⟩
  | cons a t ih =>
    by_cases hp : p a = true
    · obtain ⟨s, hs⟩ := ih
      exact ⟨a :: s, by simp [List.dropWhile_cons, hp, hs]⟩
    · exact ⟨[], by simp [List.dropWhile_cons, hp]⟩

theorem head?_append_left {α : Type} (a b : List α) (h : a ≠ []) :
    (a ++ b).head? = a.head? := by
  cases a with
  | nil => exact absurd rfl h
  | cons x xs => simp

theorem getLast?_append_right {α : Type} (a b : List α) (h : b ≠ []) :
    (a ++ b).getLast? = b.getLast? := by
  rw [← List.head?_reverse, ← List.head?_reverse, List.reverse_append]
  exact head?_append_left _ _ (by simpa using h)

/-- Removal of the trailing run of characters satisfying `p`. -/
def revDrop {α : Type} (p : α → Bool) (l : List α) : List α :=
  (l.reverse.dropWhile p).reverse

theorem revDrop_getLast_false {α : Type} (p : α → Bool) (l : List α) :
    ∀ c, (revDrop p l).getLast? = some c → p c = false := by
  intro c h
  rw [revDrop, List.getLast?_reverse] at h
  exact dropWhile_head_false p l.reverse c h

theorem revDrop_eq_self_of_getLast {α : Type} (p : α → Bool) (l : List α)
    (h : ∀ c, l.getLast? = some c → p c = false) : revDrop p l = l := by
  rw [revDrop, dropWhile_eq_self_of_head, List.reverse_reverse]
  intro c hc
  apply h
  rwa [List.head?_reverse] at hc

theorem revDrop_decomp {α : Type} (p : α → Bool) (l : List α) :
    ∃ t, revDrop p l ++ t = l := by
  obtain ⟨s, hs⟩ := dropWhile_suffix_decomp p l.reverse
  refine ⟨s.reverse, ?_⟩
  have h2 := congrArg List.reverse hs
  simpa [revDrop] using h2

theorem stripSlashesRev_eq_dropWhile (l : List Char) :
    stripSlashesRev l = l.dropWhile (fun c => c == '/') := by
  induction l with
  | nil => rfl
  | cons c rest ih =>
    by_cases h : (c == '/') = true
    · simp [stripSlashesRev, List.dropWhile_cons, h, ih]
    · simp [stripSlashesRev, List.dropWhile_cons, h]

theorem stripTrailingSlashes_eq_revDrop (l : List Char) :
    stripTrailingSlashes l = revDrop (fun c => c == '/') l := by
  rw [stripTrailingSlashes, revDrop, stripSlashesRev_eq_dropWhile]

theorem jsTrim_eq_revDrop (l : List Char) :
    jsTrim l = revDrop isJsSpace (l.dropWhile isJsSpace) := rfl

/-- C5: `normalizeUrl` trims whitespace, removes all trailing `'/'`
characters, then prepends `https://` exactly when the result does not
start with the HTTP scheme token `http`; in particular it sends
`"example.com/"` to `"https://example.com"` and `" http://x.com///"` to
`"http://x.com"`. -/
theorem normalizeUrl_matches_spec :
    (∀ url : List Char, normalizeUrl url = specNormalizeUrl url)
    ∧ normalizeUrl "example.com/".toList = "https://example.com".toList
    ∧ normalizeUrl " http://x.com///".toList = "http://x.com".toList := by
  refine ⟨?_, by decide, by decide⟩
  intro url
  simp [normalizeUrl, specNormalizeUrl, stripTrailingSlashes,
    stripSlashesRev_eq_dropWhile]

/-- C9 counterexample: `normalizeUrl` is not idempotent. One pass on `"/"`
yields `"https://"`, whose own trailing slashes the second pass strips,
giving `"https:"`. -/
theorem normalizeUrl_not_idempotent_cex :
    normalizeUrl (normalizeUrl "/".toList) ≠ normalizeUrl "/".toList := by
  decide

/-- C9 amended: `normalizeUrl` is idempotent on every input whose trimmed,
slash-stripped core is nonempty and does not end in a whitespace
character; the counterexample `"/"` (empty core) shows the restriction is
needed. -/
theorem normalizeUrl_idempotent_of_clean (url : List Char)
    (h1 : stripTrailingSlashes (jsTrim url) ≠ [])
    (h2 : isJsSpace ((stripTrailingSlashes (jsTrim url)).getLastD ' ') = false) :
    normalizeUrl (normalizeUrl url) = normalizeUrl url := by
  set r := stripTrailingSlashes (jsTrim url) with hrdef
  obtain ⟨c, hc⟩ : ∃ c, r.getLast? = some c := by
    cases hg : r.getLast? with
    | none => exact absurd (List.getLast?_eq_none_iff.mp hg) h1
    | some c => exact ⟨c, rfl⟩
  have hcspace : isJsSpace c = false := by
    rw [List.getLastD_eq_getLast?, hc] at h2
    exact h2
  have hcslash : (c == '/') = false := by
    apply revDrop_getLast_false (fun x => x == '/') (jsTrim url) c
    rw [← stripTrailingSlashes_eq_revDrop, ← hrdef]
    exact hc
  obtain ⟨d, hd⟩ : ∃ d, r.head? = some d := by
    cases hg : r.head? with
    | none => exact absurd (List.head?_eq_none_iff.mp hg) h1
    | some d => exact ⟨d, rfl⟩
  have hdspace : isJsSpace d = false := by
    obtain ⟨t1, ht1⟩ := revDrop_decomp (fun x => x == '/') (jsTrim url)
    rw [← stripTrailingSlashes_eq_revDrop, ← hrdef] at ht1
    obtain ⟨t2, ht2⟩ := revDrop_decomp isJsSpace (url.dropWhile isJsSpace)
    rw [← jsTrim_eq_revDrop] at ht2
    have hru : r ++ (t1 ++ t2) = url.dropWhile isJsSpace := by
      rw [← List.append_assoc, ht1, ht2]
    have hhd : (url.dropWhile isJsSpace).head? = some d := by
      rw [← hru, head?_append_left _ _ h1]
      exact hd
    exact dropWhile_head_false isJsSpace url d hhd
  have hlastr : ∀ x, r.getLast? = some x → isJsSpace x = false := by
    intro x hx
    rw [hc] at hx
    cases hx
    exact hcspace
  have hlastrS : ∀ x, r.getLast? = some x → (x == '/') = false := by
    intro x hx
    rw [hc] at hx
    cases hx
    exact hcslash
  have hheadr : ∀ x, r.head? = some x → isJsSpace x = false := by
    intro x hx
    rw [hd] at hx
    cases hx
    exact hdspace
  by_cases hhttp : startsWithHttp r = true
  · have ho : normalizeUrl url = r := by
      rw [normalizeUrl, ← hrdef, if_pos hhttp]
    rw [ho]
    have htrim : jsTrim r = r := by
      rw [jsTrim_eq_revDrop, dropWhile_eq_self_of_head isJsSpace r hheadr]
      exact revDrop_eq_self_of_getLast isJsSpace r hlastr
    have hstrip : stripTrailingSlashes r = r := by
      rw [stripTrailingSlashes_eq_revDrop]
      exact revDrop_eq_self_of_getLast _ r hlastrS
    rw [normalizeUrl, htrim, hstrip, if_pos hhttp]
  · have ho : normalizeUrl url = "https://".toList ++ r := by
      rw [normalizeUrl, ← hrdef, if_neg hhttp]
    rw [ho]
    have holast : ∀ x, ("https://".toList ++ r).getLast? = some x →
        isJsSpace x = false ∧ (x == '/') = false := by
      intro x hx
      rw [getLast?_append_right _ _ h1, hc] at hx
      cases hx
      exact ⟨hcspace, hcslash⟩
    have hohead : ∀ x, ("https://".toList ++ r).head? = some x →
        isJsSpace x = false := by
      intro x hx
      cases hx
      rfl
    have htrim : jsTrim ("https://".toList ++ r) = "https://".toList ++ r := by
      rw [jsTrim_eq_revDrop, dropWhile_eq_self_of_head isJsSpace _ hohead]
      exact revDrop_eq_self_of_getLast isJsSpace _ (fun x hx => (holast x hx).1)
    have hstrip : stripTrailingSlashes ("https://".toList ++ r)
        = "https://".toList ++ r := by
      rw [stripTrailingSlashes_eq_revDrop]
      exact revDrop_eq_self_of_getLast _ _ (fun x hx => (holast x hx).2)
    have hoh : startsWithHttp ("https://".toList ++ r) = true := rfl
    rw [normalizeUrl, htrim, hstrip, if_pos hoh]

/-- Witness for the amended idempotence theorem at `"example.com/"`. -/
theorem normalizeUrl_idempotent_witness :
    normalizeUrl (normalizeUrl "example.com/".toList)
      = normalizeUrl "example.com/".toList :=
  normalizeUrl_idempotent_of_clean "example.com/".toList (by decide) (by decide)

/-! ## Oldest-post history fetch guard (`analyzeBlogAndFetch`) -/

/-- Guard of the optional oldest-post history fetch: the source issues it
when `totalPosts > 0` and `Math.min(totalPosts, 500) > 1` both hold. -/
def historyFetchRequested (totalPosts : ℤ) : Bool :=
  totalPosts > 0 && min totalPosts 500 > 1

/-- Start index used by the history fetch: `Math.min(totalPosts, 500)`. -/
def historyStartIndex (totalPosts : ℤ) : ℤ := min totalPosts 500

/-- First-post date selection of `analyzeBlogAndFetch`: the parsed
creation date when the history fetch produced one, else the oldest post
of the local sample, else `now` (the fresh `new Date()` default). -/
def firstPostDateSel (creationDate : Option ℚ) (postDates : List ℚ)
    (now : ℚ) : ℚ :=
  match creationDate with
  | some d => d
  | none => postDates.getLastD now

/-- C4 counterexample: for a reported total of 10 posts, below the local
sample size of 25, the history fetch is still issued. -/
theorem historyFetch_below_sample_cex :
    historyFetchRequested 10 = true ∧ ¬((25:ℤ) < 10) := by decide

/-- C4 amended: the history fetch is issued exactly when the reported
total exceeds 1 (its guard is `totalPosts > 0 ∧ min(totalPosts,500) > 1`),
not only when it exceeds the local sample size 25; whenever no creation
date is obtained, the first-post date falls back to the oldest post of
the local sample, or to `now` when the sample is empty. -/
theorem historyFetch_guard_iff (totalPosts : ℤ) (postDates : List ℚ)
    (now : ℚ) :
    (historyFetchRequested totalPosts = true ↔ 1 < totalPosts)
    ∧ firstPostDateSel none postDates now = postDates.getLastD now := by
  refine ⟨⟨?_, ?_⟩, rfl⟩
  · intro h
    simp only [historyFetchRequested, Bool.and_eq_true, decide_eq_true_eq] at h
    exact (lt_min_iff.mp h.2).1
  · intro h
    simp only [historyFetchRequested, Bool.and_eq_true, decide_eq_true_eq]
    exact ⟨by omega, lt_min_iff.mpr ⟨h, by norm_num⟩⟩

/-! ## Data model (`src/types.ts`) -/

inductive BlogStatus where
  | Active
  | Inactive
  | Unreachable
deriving DecidableEq

structure BlogPost where
  title : String
  link : String
  pubDate : String
  guid : String
  snippet : String
  wordCount : ℕ
  imageCount : ℕ
  commentCount : ℕ
  tags : List String
deriving DecidableEq

/-- Aggregate statistics. Numeric JS fields are exact rationals; the two
date fields, ISO strings in the source, are modelled as the millisecond
timestamps they parse back to via `new Date(...)`. -/
structure BlogStats where
  totalPosts : ℚ
  totalPages : ℚ
  totalComments : ℚ
  avgCommentsPerPost : ℚ
  avgWordsPerPost : ℚ
  avgWordsPerPage : ℚ
  avgImagesPerPost : ℚ
  avgDaysBetweenPosts : ℚ
  consistencyScore : ℚ
  followersCount : ℚ
  firstPostDate : ℚ
  lastPostDate : ℚ
deriving DecidableEq

structure BlogMetadata where
  id : String
  url : String
  feedUrl : String
  title : String
  description : String
  lastBuildDate : String
  category : String
  tags : List String
  status : BlogStatus
  isFavorite : Bool
  sentimentScore : ℚ
  qualityScore : ℤ
  language : String
  addedAt : String
  lastCheckedAt : String
  posts : List BlogPost
  stats : BlogStats
deriving DecidableEq

/-- The partial metadata snapshot returned by `analyzeBlogAndFetch`
(`Partial<BlogMetadata>` restricted to the fields it always sets). -/
structure AnalysisResult where
  title : String
  description : String
  lastBuildDate : String
  posts : List BlogPost
  status : BlogStatus
  stats : BlogStats
  qualityScore : ℤ
  tags : List String
deriving DecidableEq

/-- Cap on the stored post list (`constants.ts`). -/
def MAX_RECENT_POSTS : ℕ := 5

/-! ## Tag aggregation and the snapshot assembly -/

/-- Model of JS `Array.from(new Set(list))`: insert elements left to
right, keeping the first occurrence of each, in insertion order. -/
def setFromList (l : List String) : List String :=
  l.foldl (fun acc t => if t ∈ acc then acc else acc ++ [t]) []

/-- Spec-side first-seen deduplication, with an explicit `seen` set. -/
def firstSeenAux (seen : List String) : List String → List String
  | [] => []
  | t :: rest =>
    if t ∈ seen then firstSeenAux seen rest
    else t :: firstSeenAux (seen ++ [t]) rest

/-- Deduplicated list in first-seen order. -/
def firstSeenDedup (l : List String) : List String := firstSeenAux [] l

theorem setFromList_go (l : List String) :
    ∀ acc, l.foldl (fun acc t => if t ∈ acc then acc else acc ++ [t]) acc
      = acc ++ firstSeenAux acc l := by
  induction l with
  | nil => intro acc; simp [firstSeenAux]
  | cons t rest ih =>
    intro acc
    by_cases h : t ∈ acc
    · simp [List.foldl_cons, firstSeenAux, h, ih acc]
    · simp only [List.foldl_cons, firstSeenAux, if_neg h, ih (acc ++ [t])]
      simp

theorem setFromList_eq_firstSeenDedup (l : List String) :
    setFromList l = firstSeenDedup l := by
  have h := setFromList_go l []
  simpa [setFromList, firstSeenDedup] using h

/-- Final snapshot assembly of `analyzeBlogAndFetch`: posts capped to
`MAX_RECENT_POSTS`, post tags collected into a JS `Set` (the nested
`forEach` inserts them in flattened order) and capped to the first 15. -/
def assembleAnalysis (title description lastBuildDate : String)
    (processedPosts : List BlogPost) (status : BlogStatus)
    (stats : BlogStats) (qualityScore : ℤ) : AnalysisResult :=
  { title := title
    description := description
    lastBuildDate := lastBuildDate
    posts := processedPosts.take MAX_RECENT_POSTS
    status := status
    stats := stats
    qualityScore := qualityScore
    tags := (setFromList ((processedPosts.map BlogPost.tags).flatten)).take 15 }

/-- Tag merge performed by `handleAddBlog`:
`Array.from(new Set([...analysisData.tags, ...classification.tags]))`. -/
def addBlogTags (analysisTags classTags : List String) : List String :=
  setFromList (analysisTags ++ classTags)

/-- A legal analyzer-side tag list of the maximal length 15. -/
def cexAnalyzerTags : List String :=
  ["t01", "t02", "t03", "t04", "t05", "t06", "t07", "t08", "t09", "t10",
   "t11", "t12", "t13", "t14", "t15"]

/-- C3 counterexample: with 15 analyzer-derived tags and one new
classifier tag, the stored tag list has 16 entries, so it is not the
claimed union capped at 15. -/
theorem addBlogTags_cap_cex :
    addBlogTags cexAnalyzerTags ["tutorial"]
      ≠ (firstSeenDedup (cexAnalyzerTags ++ ["tutorial"])).take 15 := by
  decide

/-- C3 amended: the stored tags of a newly added blog are the deduplicated
union of the analyzer-derived tags followed by the classifier tags, in
first-seen order, with no overall cap; only the analyzer-derived portion
is capped, to 15, inside the analysis itself. -/
theorem addBlogTags_eq_firstSeenDedup :
    (∀ analysisTags classTags : List String,
      addBlogTags analysisTags classTags
        = firstSeenDedup (analysisTags ++ classTags))
    ∧ ∀ (t d lb : String) (ps : List BlogPost) (st : BlogStatus)
        (s : BlogStats) (q : ℤ),
        (assembleAnalysis t d lb ps st s q).tags.length ≤ 15 := by
  refine ⟨fun aTags cTags => setFromList_eq_firstSeenDedup _, ?_⟩
  intro t d lb ps st s q
  simp [assembleAnalysis]

/-- C10: the snapshot's post list is the initial segment, of length at
most `MAX_RECENT_POSTS = 5`, of the processed feed entries. -/
theorem posts_snapshot_capped (t d lb : String) (ps : List BlogPost)
    (st : BlogStatus) (s : BlogStats) (q : ℤ) :
    (assembleAnalysis t d lb ps st s q).posts = ps.take MAX_RECENT_POSTS
    ∧ (assembleAnalysis t d lb ps st s q).posts.length ≤ 5
    ∧ ∃ rest, (assembleAnalysis t d lb ps st s q).posts ++ rest = ps := by
  refine ⟨rfl, ?_, ⟨ps.drop MAX_RECENT_POSTS, ?_⟩⟩
  · simp [assembleAnalysis, MAX_RECENT_POSTS]
  · simp [assembleAnalysis]

/-! ## Single-blog refresh (`handleRefreshBlog` in App.tsx) -/

/-- The record update of a successful refresh: spread of the old record
with the snapshot fields overwritten, tags unioned, and the check
timestamp renewed. -/
def refreshMerge (b : BlogMetadata) (a : AnalysisResult)
    (nowIso : String) : BlogMetadata :=
  { b with
    title := a.title
    description := a.description
    lastBuildDate := a.lastBuildDate
    posts := a.posts
    status := a.status
    stats := a.stats
    qualityScore := a.qualityScore
    tags := setFromList (b.tags ++ a.tags)
    lastCheckedAt := nowIso }

/-- Model of `handleRefreshBlog`: the analysis outcome for a URL is
passed in as the function `analyze`; a throw is an `Except.error`. -/
def handleRefreshBlog (analyze : String → Except String AnalysisResult)
    (nowIso : String) (blogs : List BlogMetadata) (id : String) :
    List BlogMetadata :=
  match blogs.find? (fun b => b.id == id) with
  | none => blogs
  | some blog =>
    match analyze blog.url with
    | Except.error _ => blogs
    | Except.ok a =>
      blogs.map (fun b => if b.id == id then refreshMerge b a nowIso else b)

/-- C7: when the analysis of the found blog fails, the collection — hence
the target record and every other record — is returned unchanged. -/
theorem refresh_failure_leaves_blogs_unchanged
    (analyze : String → Except String AnalysisResult) (nowIso : String)
    (blogs : List BlogMetadata) (id : String) (b : BlogMetadata) (e : String)
    (hfind : blogs.find? (fun x => x.id == id) = some b)
    (hfail : analyze b.url = Except.error e) :
    handleRefreshBlog analyze nowIso blogs id = blogs := by
  simp [handleRefreshBlog, hfind, hfail]

/-- All-zero statistics record, used by concrete witnesses. -/
def sampleStats : BlogStats :=
  { totalPosts := 0, totalPages := 0, totalComments := 0,
    avgCommentsPerPost := 0, avgWordsPerPost := 0, avgWordsPerPage := 0,
    avgImagesPerPost := 0, avgDaysBetweenPosts := 0, consistencyScore := 0,
    followersCount := 0, firstPostDate := 0, lastPostDate := 0 }

/-- A concrete tracked blog, used by concrete witnesses. -/
def sampleBlog : BlogMetadata :=
  { id := "b1", url := "https://example.com",
    feedUrl := "https://example.com/feeds/posts/default?alt=json",
    title := "T", description := "D", lastBuildDate := "2024-01-01",
    category := "Technology", tags := ["go", "web"],
    status := BlogStatus.Active, isFavorite := false,
    sentimentScore := 50, qualityScore := 40, language := "English",
    addedAt := "2024-01-01", lastCheckedAt := "2024-01-01",
    posts := [], stats := sampleStats }

/-- A concrete analysis snapshot, used by concrete witnesses. -/
def sampleAnalysis : AnalysisResult :=
  { title := "T2", description := "D2", lastBuildDate := "2024-02-01",
    posts := [], status := BlogStatus.Active, stats := sampleStats,
    qualityScore := 55, tags := ["web", "tutorial"] }

/-- Witness for C7 on a one-element collection and a failing analysis. -/
theorem refresh_failure_witness :
    handleRefreshBlog (fun _ => Except.error "down") "2024-03-01"
      [sampleBlog] "b1" = [sampleBlog] :=
  refresh_failure_leaves_blogs_unchanged _ _ _ _ sampleBlog "down" rfl rfl

/-- C8: a successful refresh maps the collection through `refreshMerge`
on the matching record, and `refreshMerge` keeps `id`, `url`, `feedUrl`,
`category`, `sentimentScore`, `language`, `isFavorite` and `addedAt`
unchanged, unions the tags, and renews `lastCheckedAt`; every other field
it overwrites comes from the snapshot. -/
theorem refresh_success_frame
    (analyze : String → Except String AnalysisResult) (nowIso : String)
    (blogs : List BlogMetadata) (id : String) (b : BlogMetadata)
    (a : AnalysisResult)
    (hfind : blogs.find? (fun x => x.id == id) = some b)
    (hok : analyze b.url = Except.ok a) :
    handleRefreshBlog analyze nowIso blogs id
      = blogs.map (fun x => if x.id == id then refreshMerge x a nowIso else x)
    ∧ ∀ x : BlogMetadata,
        (refreshMerge x a nowIso).id = x.id
        ∧ (refreshMerge x a nowIso).url = x.url
        ∧ (refreshMerge x a nowIso).feedUrl = x.feedUrl
        ∧ (refreshMerge x a nowIso).category = x.category
        ∧ (refreshMerge x a nowIso).sentimentScore = x.sentimentScore
        ∧ (refreshMerge x a nowIso).language = x.language
        ∧ (refreshMerge x a nowIso).isFavorite = x.isFavorite
        ∧ (refreshMerge x a nowIso).addedAt = x.addedAt
        ∧ (refreshMerge x a nowIso).tags = setFromList (x.tags ++ a.tags)
        ∧ (refreshMerge x a nowIso).lastCheckedAt = nowIso := by
  refine ⟨by simp [handleRefreshBlog, hfind, hok], ?_⟩
  intro x
  exact ⟨rfl, rfl, rfl, rfl, rfl, rfl, rfl, rfl, rfl, rfl⟩

/-- Witness for C8 on a one-element collection and a succeeding analysis. -/
theorem refresh_success_frame_witness :
    handleRefreshBlog (fun _ => Except.ok sampleAnalysis) "2024-03-01"
      [sampleBlog] "b1"
      = [sampleBlog].map (fun x =>
          if x.id == "b1" then refreshMerge x sampleAnalysis "2024-03-01" else x)
    ∧ ∀ x : BlogMetadata,
        (refreshMerge x sampleAnalysis "2024-03-01").id = x.id
        ∧ (refreshMerge x sampleAnalysis "2024-03-01").url = x.url
        ∧ (refreshMerge x sampleAnalysis "2024-03-01").feedUrl = x.feedUrl
        ∧ (refreshMerge x sampleAnalysis "2024-03-01").category = x.category
        ∧ (refreshMerge x sampleAnalysis "2024-03-01").sentimentScore
            = x.sentimentScore
        ∧ (refreshMerge x sampleAnalysis "2024-03-01").language = x.language
        ∧ (refreshMerge x sampleAnalysis "2024-03-01").isFavorite = x.isFavorite
        ∧ (refreshMerge x sampleAnalysis "2024-03-01").addedAt = x.addedAt
        ∧ (refreshMerge x sampleAnalysis "2024-03-01").tags
            = setFromList (x.tags ++ sampleAnalysis.tags)
        ∧ (refreshMerge x sampleAnalysis "2024-03-01").lastCheckedAt
            = "2024-03-01" :=
  refresh_success_frame _ _ _ _ sampleBlog sampleAnalysis rfl rfl

/-! ## Relay fetcher (`fetchWithProxy`) -/

/-- The ordered, fixed relay endpoint list of the source. -/
def PROXIES : List String :=
  ["https://corsproxy.io/?",
   "https://api.allorigins.win/raw?url=",
   "https://api.codetabs.com/v1/proxy?quest=",
   "https://cors-anywhere.herokuapp.com/"]

/-- Outcome of one relay attempt, supplied by the environment: a
successful response (abstracted to a response identifier), a response
whose status is not ok, or a thrown error (network failure or the
20-second timeout abort). -/
inductive AttemptOutcome where
  | ok (resp : ℕ)
  | httpError (status : ℤ)
  | exn (msg : String)
deriving DecidableEq

/-- The error value carried when every relay fails. -/
inductive ProxyFailure where
  | statusError (status : ℤ)
  | thrown (msg : String)
  | generic (msg : String)
deriving DecidableEq

/-- The fallback thrown when no error was captured:
`new Error("All proxies failed. ...")`. -/
def genericFailure : ProxyFailure :=
  ProxyFailure.generic
    "All proxies failed. Check your internet connection or try disabling ad-blockers."

/-- The `lastError` recorded for one failed attempt: a status error for a
non-ok response, the thrown value otherwise; `none` for a success. -/
def attemptErr : AttemptOutcome → Option ProxyFailure
  | AttemptOutcome.ok _ => none
  | AttemptOutcome.httpError s => some (ProxyFailure.statusError s)
  | AttemptOutcome.exn m => some (ProxyFailure.thrown m)

def attemptOk : AttemptOutcome → Bool
  | AttemptOutcome.ok _ => true
  | _ => false

/-- The `for (const proxyBase of PROXIES)` loop with its `lastError`
accumulator. The second component counts the attempts actually made, so
that not trying later relays is visible in the model. -/
def fetchLoop : List AttemptOutcome → Option ProxyFailure →
    Except ProxyFailure ℕ × ℕ
  | [], last => (Except.error (last.getD genericFailure), 0)
  | AttemptOutcome.ok r :: _, _ => (Except.ok r, 1)
  | AttemptOutcome.httpError s :: rest, _ =>
    let p := fetchLoop rest (some (ProxyFailure.statusError s))
    (p.1, p.2 + 1)
  | AttemptOutcome.exn m :: rest, _ =>
    let p := fetchLoop rest (some (ProxyFailure.thrown m))
    (p.1, p.2 + 1)

/-- `fetchWithProxy`, given the per-relay outcomes in `PROXIES` order. -/
def fetchWithProxy (attempts : List AttemptOutcome) :
    Except ProxyFailure ℕ × ℕ :=
  fetchLoop attempts none

theorem getLast?_cons_getD {α : Type} (a : α) (m : List α) (d : α) :
    ((a :: m).getLast?).getD d = (m.getLast?).getD a := by
  cases hg : m.getLast? with
  | none =>
    have hm : m = [] := List.getLast?_eq_none_iff.mp hg
    subst hm
    rfl
  | some e =>
    have hne : m ≠ [] := by
      intro h
      rw [h] at hg
      simp at hg
    rw [show a :: m = [a] ++ m from rfl, getLast?_append_right [a] m hne, hg]
    rfl

theorem fetchLoop_first_ok (post : List AttemptOutcome) (r : ℕ) :
    ∀ (pre : List AttemptOutcome) (last : Option ProxyFailure),
      (∀ a ∈ pre, attemptOk a = false) →
      fetchLoop (pre ++ AttemptOutcome.ok r :: post) last
        = (Except.ok r, pre.length + 1) := by
  intro pre
  induction pre with
  | nil => intro last _; rfl
  | cons a t ih =>
    intro last hfail
    have ha : attemptOk a = false := hfail a (List.mem_cons_self a t)
    have ht : ∀ x ∈ t, attemptOk x = false :=
      fun x hx => hfail x (List.mem_cons_of_mem a hx)
    cases a with
    | ok r2 => simp [attemptOk] at ha
    | httpError s =>
      have hstep :
          fetchLoop (AttemptOutcome.httpError s :: t
              ++ AttemptOutcome.ok r :: post) last
            = ((fetchLoop (t ++ AttemptOutcome.ok r :: post)
                  (some (ProxyFailure.statusError s))).1,
               (fetchLoop (t ++ AttemptOutcome.ok r :: post)
                  (some (ProxyFailure.statusError s))).2 + 1) := rfl
      rw [hstep, ih _ ht]
      rfl
    | exn m =>
      have hstep :
          fetchLoop (AttemptOutcome.exn m :: t
              ++ AttemptOutcome.ok r :: post) last
            = ((fetchLoop (t ++ AttemptOutcome.ok r :: post)
                  (some (ProxyFailure.thrown m))).1,
               (fetchLoop (t ++ AttemptOutcome.ok r :: post)
                  (some (ProxyFailure.thrown m))).2 + 1) := rfl
      rw [hstep, ih _ ht]
      rfl

theorem fetchLoop_all_fail :
    ∀ (attempts : List AttemptOutcome) (last : Option ProxyFailure),
      (∀ a ∈ attempts, attemptOk a = false) →
      fetchLoop attempts last
        = (Except.error
            (((attempts.filterMap attemptErr).getLast?).getD
              (last.getD genericFailure)),
           attempts.length) := by
  intro attempts
  induction attempts with
  | nil => intro last _; rfl
  | cons a t ih =>
    intro last hfail
    have ha : attemptOk a = false := hfail a (List.mem_cons_self a t)
    have ht : ∀ x ∈ t, attemptOk x = false :=
      fun x hx => hfail x (List.mem_cons_of_mem a hx)
    cases a with
    | ok r2 => simp [attemptOk] at ha
    | httpError s =>
      have hstep :
          fetchLoop (AttemptOutcome.httpError s :: t) last
            = ((fetchLoop t (some (ProxyFailure.statusError s))).1,
               (fetchLoop t (some (ProxyFailure.statusError s))).2 + 1) := rfl
      rw [hstep, ih _ ht]
      simp [List.filterMap_cons, attemptErr, getLast?_cons_getD]
    | exn m =>
      have hstep :
          fetchLoop (AttemptOutcome.exn m :: t) last
            = ((fetchLoop t (some (ProxyFailure.thrown m))).1,
               (fetchLoop t (some (ProxyFailure.thrown m))).2 + 1) := rfl
      rw [hstep, ih _ ht]
      simp [List.filterMap_cons, attemptErr, getLast?_cons_getD]

/-- C6: the relay loop returns the first successful response unmodified
after exactly the attempts preceding it plus one — later relays are never
attempted — and, when every relay errors, times out or returns a non-ok
status, it fails with the last recorded error, falling back to the
generic connectivity / ad-blocker message only when no attempt recorded
an error. -/
theorem fetchWithProxy_first_ok_last_error :
    (∀ (pre post : List AttemptOutcome) (r : ℕ),
      (∀ a ∈ pre, attemptOk a = false) →
      fetchWithProxy (pre ++ AttemptOutcome.ok r :: post)
        = (Except.ok r, pre.length + 1))
    ∧ (∀ attempts : List AttemptOutcome,
        (∀ a ∈ attempts, attemptOk a = false) →
        fetchWithProxy attempts
          = (Except.error
              (((attempts.filterMap attemptErr).getLast?).getD genericFailure),
             attempts.length)) := by
  constructor
  · intro pre post r hfail
    exact fetchLoop_first_ok post r pre none hfail
  · intro attempts hfail
    simpa using fetchLoop_all_fail attempts none hfail

/-- Witness for C6: the second relay's success is returned after two
attempts, and a single thrown failure is surfaced as the last error. -/
theorem fetchWithProxy_witness :
    fetchWithProxy [AttemptOutcome.httpError 500, AttemptOutcome.ok 7]
      = (Except.ok 7, 2)
    ∧ fetchWithProxy [AttemptOutcome.exn "boom"]
      = (Except.error (ProxyFailure.thrown "boom"), 1) :=
  ⟨fetchWithProxy_first_ok_last_error.1 [AttemptOutcome.httpError 500] []
      7 (by decide),
   fetchWithProxy_first_ok_last_error.2 [AttemptOutcome.exn "boom"]
      (by decide)⟩

/-! ## Scoring engine (`calculateConsistencyScore`, `calculateQualityScore`) -/

/-- Milliseconds per day: `1000 * 60 * 60 * 24`. -/
def msPerDay : ℚ := 1000 * 60 * 60 * 24

/-- Day gaps between adjacent dates as the source loop computes them:
`Math.abs(dates[i] - dates[i+1]) / 86400000`. -/
def gapsOf (dates : List ℚ) : List ℚ :=
  (dates.zip dates.tail).map (fun p => |p.1 - p.2| / msPerDay)

/-- Mean of the gap list. -/
def meanOf (gaps : List ℚ) : ℚ := gaps.sum / gaps.length

/-- Population variance of the gap list. -/
def varianceOf (gaps : List ℚ) : ℚ :=
  (gaps.map (fun g => (g - meanOf gaps) ^ 2)).sum / gaps.length

/-- Coefficient of variation: population standard deviation over mean,
`0` when the mean is `0`. -/
noncomputable def cvOf (gaps : List ℚ) : ℝ :=
  if meanOf gaps = 0 then 0
  else Real.sqrt ((varianceOf gaps : ℝ)) / ((meanOf gaps : ℝ))

/-- Source `calculateConsistencyScore`, over parsed post dates (newest
first, as delivered by the feed) and the current time. -/
noncomputable def calculateConsistencyScore (dates : List ℚ) (now : ℚ) : ℤ :=
  if dates.length < 3 then 50
  else
    let gaps := gapsOf dates
    if gaps.length = 0 then 0
    else
      let cv := cvOf gaps
      let score0 : ℝ := 100 - cv * 66
      let daysSinceLastPost : ℚ := (now - dates.headD 0) / msPerDay
      let score1 : ℝ := if daysSinceLastPost > 90 then score0 - 20 else score0
      let score2 : ℝ := if daysSinceLastPost > 365 then score1 - 40 else score1
      max 0 (min 100 (round score2))

/-- Spec-side consistency score: `50` below 3 dates, otherwise the
clamped rounding of `100 - cv·66 - p`, the gaps taken in the given
newest-first order and `p` the cumulative staleness penalty. -/
noncomputable def specConsistencyScore (dates : List ℚ) (now : ℚ) : ℤ :=
  if dates.length < 3 then 50
  else
    let gaps := (dates.zip dates.tail).map (fun p => (p.1 - p.2) / msPerDay)
    let cv := cvOf gaps
    let days : ℚ := (now - dates.headD 0) / msPerDay
    let p : ℝ := (if days > 90 then 20 else 0) + (if days > 365 then 40 else 0)
    max 0 (min 100 (round (100 - cv * 66 - p)))

theorem chain'_zip_pairs {α : Type} (R : α → α → Prop) :
    ∀ l : List α, List.Chain' R l → ∀ p ∈ l.zip l.tail, R p.1 p.2 := by
  intro l
  induction l with
  | nil => intro _ p hp; simp at hp
  | cons a t ih =>
    intro hchain p hp
    cases t with
    | nil => simp at hp
    | cons b t2 =>
      rw [List.chain'_cons] at hchain
      simp only [List.tail_cons, List.zip_cons_cons, List.mem_cons] at hp
      rcases hp with hp | hp
      · subst hp; exact hchain.1
      · exact ih hchain.2 p hp

/-- C1: under the claim's newest-first hypothesis,
`calculateConsistencyScore` returns `50` for fewer than 3 dates and
otherwise the clamped rounding of `100 - cv·66 - p` exactly as the spec
formula states. -/
theorem consistencyScore_matches_spec (dates : List ℚ) (now : ℚ)
    (hsorted : List.Chain' (fun a b => b ≤ a) dates) :
    calculateConsistencyScore dates now = specConsistencyScore dates now := by
  by_cases hlen : dates.length < 3
  · simp [calculateConsistencyScore, specConsistencyScore, hlen]
  · have hgaps : gapsOf dates
        = (dates.zip dates.tail).map (fun p => (p.1 - p.2) / msPerDay) := by
      unfold gapsOf
      apply List.map_congr_left
      intro p hp
      have hle : p.2 ≤ p.1 := chain'_zip_pairs _ dates hsorted p hp
      rw [abs_of_nonneg (by linarith)]
    have hglen : ¬(gapsOf dates).length = 0 := by
      have hz := List.length_zip dates dates.tail
      simp only [gapsOf, List.length_map]
      rw [hz, List.length_tail]
      omega
    simp only [calculateConsistencyScore, specConsistencyScore,
      if_neg hlen, hgaps] at hglen ⊢
    rw [if_neg hglen]
    by_cases h90 : ((now - dates.headD 0) / msPerDay : ℚ) > 90 <;>
      by_cases h365 : ((now - dates.headD 0) / msPerDay : ℚ) > 365 <;>
      simp only [h90, h365, if_true, if_false, ite_true, ite_false,
        if_pos, if_neg, not_false_iff] <;>
      (congr 3; ring)

/-- Witness for C1 on three equally spaced, newest-first dates. -/
theorem consistencyScore_matches_spec_witness :
    calculateConsistencyScore [2, 1, 0] 0 = specConsistencyScore [2, 1, 0] 0 :=
  consistencyScore_matches_spec [2, 1, 0] 0 (by simp [List.chain'_cons])

/-- Source `calculateQualityScore`, over a stats record and the current
time (`new Date()`, used only by the longevity term). -/
noncomputable def calculateQualityScore (stats : BlogStats) (now : ℚ) : ℤ :=
  let avgWordsScore : ℝ := min 100 ((stats.avgWordsPerPost : ℝ) / 800 * 100)
  let avgImgScore : ℝ := min 100 ((stats.avgImagesPerPost : ℝ) / 3 * 100)
  let score1 : ℝ := avgWordsScore * 0.15 + avgImgScore * 0.10
  let totalPostScore : ℝ := min 100 ((stats.totalPosts : ℝ) / 100 * 100)
  let score2 : ℝ :=
    score1 + totalPostScore * 0.10 + (stats.consistencyScore : ℝ) * 0.15
  let commentScore : ℝ := min 100 ((stats.avgCommentsPerPost : ℝ) * 10)
  let followerScore : ℝ :=
    if 0 < stats.followersCount
    then min 100 (Real.logb 10 ((stats.followersCount : ℝ)) * 25)
    else 0
  let score3 : ℝ :=
    if stats.followersCount = 0 then score2 + commentScore * 0.30
    else score2 + commentScore * 0.20 + followerScore * 0.10
  let yearsActive : ℚ := (now - stats.firstPostDate) / (1000 * 60 * 60 * 24 * 365)
  let longevityScore : ℝ := min 100 ((yearsActive : ℝ) * 20)
  let pagesScore : ℝ := min 100 ((stats.totalPages : ℝ) * 20)
  let score4 : ℝ := score3 + longevityScore * 0.10 + pagesScore * 0.10
  round score4

/-- Statistics identical to `sampleStats` except that the (estimated)
first-post date lies far in the future of the evaluation time `0`:
10000 years in milliseconds. -/
def futureStats : BlogStats :=
  { sampleStats with firstPostDate := 315360000000000 }

/-- C2 counterexample: on a stats record all of whose fields are
well-formed (counts and averages nonnegative, consistency in range,
follower count zero) but whose first-post date lies in the future of the
evaluation time, the quality score is negative, so `calculateQualityScore`
is not bounded to `[0, 100]` for every `BlogStats` value. -/
theorem qualityScore_out_of_range_cex :
    calculateQualityScore futureStats 0 < 0 := by
  have h : calculateQualityScore futureStats 0 = round ((-20000 : ℝ)) := by
    simp only [calculateQualityScore, futureStats, sampleStats]
    norm_num [min_def]
  rw [h, round_eq]
  norm_num

theorem round_in_range {x : ℝ} (h : 0 ≤ x ∧ x ≤ 100) :
    0 ≤ round x ∧ round x ≤ 100 := by
  rw [round_eq]
  constructor
  · exact Int.floor_nonneg.mpr (by linarith)
  · have h1 : (⌊x + 1/2⌋ : ℤ) ≤ ⌊(100 + 1/2 : ℝ)⌋ :=
      Int.floor_le_floor (by linarith)
    have h2 : (⌊(100 + 1/2 : ℝ)⌋ : ℤ) = 100 := by norm_num
    omega

theorem min100_in_range {t : ℝ} (ht : 0 ≤ t) :
    0 ≤ min 100 t ∧ min 100 t ≤ 100 :=
  ⟨le_min (by norm_num) ht, min_le_left _ _⟩

/-- C2 amended: `calculateQualityScore` returns an integer in `[0, 100]`
for every stats record whose averages, counts and consistency score are
nonnegative, whose consistency score is at most 100, whose follower count
is zero or at least one, and whose first-post date does not lie in the
future of the evaluation time. Without those restrictions the score can
leave the range. -/
theorem qualityScore_bounded_of_valid_stats (stats : BlogStats) (now : ℚ)
    (hw : 0 ≤ stats.avgWordsPerPost) (hi : 0 ≤ stats.avgImagesPerPost)
    (hp : 0 ≤ stats.totalPosts) (hc0 : 0 ≤ stats.consistencyScore)
    (hc1 : stats.consistencyScore ≤ 100) (hcm : 0 ≤ stats.avgCommentsPerPost)
    (hf : stats.followersCount = 0 ∨ 1 ≤ stats.followersCount)
    (hfp : stats.firstPostDate ≤ now) (hpg : 0 ≤ stats.totalPages) :
    0 ≤ calculateQualityScore stats now
      ∧ calculateQualityScore stats now ≤ 100 := by
  simp only [calculateQualityScore]
  apply round_in_range
  have hwR : (0:ℝ) ≤ (stats.avgWordsPerPost : ℝ) := by exact_mod_cast hw
  have hiR : (0:ℝ) ≤ (stats.avgImagesPerPost : ℝ) := by exact_mod_cast hi
  have hpR : (0:ℝ) ≤ (stats.totalPosts : ℝ) := by exact_mod_cast hp
  have hcmR : (0:ℝ) ≤ (stats.avgCommentsPerPost : ℝ) := by exact_mod_cast hcm
  have hpgR : (0:ℝ) ≤ (stats.totalPages : ℝ) := by exact_mod_cast hpg
  have hcR0 : (0:ℝ) ≤ (stats.consistencyScore : ℝ) := by exact_mod_cast hc0
  have hcR1 : ((stats.consistencyScore : ℝ)) ≤ 100 := by exact_mod_cast hc1
  have hyR : (0:ℝ) ≤ (((now - stats.firstPostDate)
      / (1000 * 60 * 60 * 24 * 365) : ℚ) : ℝ) := by
    have hq : (0:ℚ) ≤ (now - stats.firstPostDate) / (1000 * 60 * 60 * 24 * 365) := by
      apply div_nonneg (by linarith) (by norm_num)
    exact_mod_cast hq
  have hA := @min100_in_range ((stats.avgWordsPerPost : ℝ) / 800 * 100)
    (mul_nonneg (div_nonneg hwR (by norm_num)) (by norm_num))
  have hB := @min100_in_range ((stats.avgImagesPerPost : ℝ) / 3 * 100)
    (mul_nonneg (div_nonneg hiR (by norm_num)) (by norm_num))
  have hC := @min100_in_range ((stats.totalPosts : ℝ) / 100 * 100)
    (mul_nonneg (div_nonneg hpR (by norm_num)) (by norm_num))
  have hD := @min100_in_range ((stats.avgCommentsPerPost : ℝ) * 10)
    (mul_nonneg hcmR (by norm_num))
  have hE := @min100_in_range ((((now - stats.firstPostDate)
      / (1000 * 60 * 60 * 24 * 365) : ℚ) : ℝ) * 20)
    (mul_nonneg hyR (by norm_num))
  have hF := @min100_in_range ((stats.totalPages : ℝ) * 20)
    (mul_nonneg hpgR (by norm_num))
  rcases hf with hf0 | hf1
  · rw [if_pos hf0]
    constructor <;> linarith [hA.1, hA.2, hB.1, hB.2, hC.1, hC.2, hD.1, hD.2,
      hE.1, hE.2, hF.1, hF.2]
  · have hne : ¬stats.followersCount = 0 := by
      intro h0
      rw [h0] at hf1
      norm_num at hf1
    have hpos : 0 < stats.followersCount := by linarith
    rw [if_neg hne, if_pos hpos]
    have hlogb : 0 ≤ Real.logb 10 ((stats.followersCount : ℝ)) :=
      Real.logb_nonneg (by norm_num) (by exact_mod_cast hf1)
    have hG := @min100_in_range (Real.logb 10 ((stats.followersCount : ℝ)) * 25)
      (mul_nonneg hlogb (by norm_num))
    constructor <;> linarith [hA.1, hA.2, hB.1, hB.2, hC.1, hC.2, hD.1, hD.2,
      hE.1, hE.2, hF.1, hF.2, hG.1, hG.2]

/-- Witness for the amended C2 theorem on the all-zero statistics record. -/
theorem qualityScore_bounded_witness :
    0 ≤ calculateQualityScore sampleStats 0
      ∧ calculateQualityScore sampleStats 0 ≤ 100 :=
  qualityScore_bounded_of_valid_stats sampleStats 0
    (by norm_num [sampleStats]) (by norm_num [sampleStats])
    (by norm_num [sampleStats]) (by norm_num [sampleStats])
    (by norm_num [sampleStats]) (by norm_num [sampleStats])
    (Or.inl (by norm_num [sampleStats])) (by norm_num [sampleStats])
    (by norm_num [sampleStats])
